import Mathlib

/-!
Verification of the `north-mcpify` browser-recording engine.

The definitions below are a shallow embedding of the Python source under
`src/`, chiefly `src/recording/recorder.py` and `src/utils/event_listener.py`.
Pure string manipulation is embedded over `List Char` so that every
definition is executable and kernel-computable; stateful recorder code is
embedded as explicit state passing over the fields that `WebRecorder.__init__`
initializes.  Fallible browser interactions (screenshots, DOM evaluation)
appear as Boolean success parameters, mirroring each `try/except` branch of
the source.
-/

namespace Mcpify

/-! ### Python-style string primitives

Embeddings of the Python/JavaScript string operations used by the recorder
(`str.strip`, `str.startswith`, slicing, `str.lower`, `str.split`,
substring search).  They are written over `String.data` so that they are
structurally recursive and computable by the kernel. -/

/-- Whitespace test matching Python `str.strip()` (space, tab, newline,
carriage return, vertical tab, form feed). -/
def pyIsSpace (c : Char) : Bool :=
  c == ' ' || c == '\t' || c == '\n' || c == '\r' || c == '\x0b' || c == '\x0c'

/-- Embedding of Python `s.strip()`. -/
def pyStrip (s : String) : String :=
  ⟨((s.data.dropWhile pyIsSpace).reverse.dropWhile pyIsSpace).reverse⟩

/-- Boolean prefix test on character lists (first argument: full list,
second: candidate leading segment). -/
def chHasLead : List Char → List Char → Bool
  | _, [] => true
  | [], _ :: _ => false
  | a :: as, b :: bs => a == b && chHasLead as bs

/-- Embedding of Python `s.startswith(p)` / JS `s.startsWith(p)`. -/
def pyStartsWith (s p : String) : Bool :=
  chHasLead s.data p.data

/-- Embedding of Python slicing `s[n:]` (drop the first `n` characters). -/
def pyDrop (s : String) (n : Nat) : String :=
  ⟨s.data.drop n⟩

/-- Embedding of Python `s.lower()` (ASCII casing suffices here). -/
def pyLower (s : String) : String :=
  ⟨s.data.map Char.toLower⟩

/-- Helper for `pySplitCount`: counts the pieces produced by splitting on a
separator character, i.e. one more than the number of separators. -/
def chSplitCount (c : Char) : List Char → Nat
  | [] => 1
  | x :: xs => (if x == c then 1 else 0) + chSplitCount c xs

/-- Number of pieces of Python `s.split(c)` (`len(s.split(c))`). -/
def pySplitCount (s : String) (c : Char) : Nat :=
  chSplitCount c s.data

/-- Boolean contiguous-segment (substring) test on character lists,
embedding JS `haystack.indexOf(needle) !== -1`. -/
def chHasSegment (hay needle : List Char) : Bool :=
  match hay with
  | [] => needle.isEmpty
  | _ :: tl => chHasLead hay needle || chHasSegment tl needle

/-- Embedding of JS `hay.indexOf(needle) !== -1`. -/
def pyContains (hay needle : String) : Bool :=
  chHasSegment hay.data needle.data

/-! ### Injectivity of the decimal step-id rendering

`recorder.py` names screenshot files `screenshots/step_{step_id}.png`; the
input coalescer later deletes a superseded operation's file by this name.
The proofs about files on disk need that distinct step ids yield distinct
file names, i.e. that `Nat.repr` is injective.  We prove it by reading the
decimal value back off the digit list. -/

/-- Value of a single decimal digit character. -/
def digitVal (c : Char) : Nat :=
  if c == '0' then 0 else if c == '1' then 1 else if c == '2' then 2 else
  if c == '3' then 3 else if c == '4' then 4 else if c == '5' then 5 else
  if c == '6' then 6 else if c == '7' then 7 else if c == '8' then 8 else 9

/-- Reads a decimal digit list back into the number it denotes. -/
def digitsVal (l : List Char) : Nat :=
  l.foldl (fun a c => a * 10 + digitVal c) 0

theorem digitVal_digitChar {d : Nat} (h : d < 10) :
    digitVal (Nat.digitChar d) = d := by
  interval_cases d <;> rfl

theorem digitsVal_append (l : List Char) (c : Char) :
    digitsVal (l ++ [c]) = digitsVal l * 10 + digitVal c := by
  simp [digitsVal, List.foldl_append]

theorem toDigitsCore_shift (fuel n : Nat) (ds : List Char) :
    Nat.toDigitsCore 10 fuel n ds = Nat.toDigitsCore 10 fuel n [] ++ ds := by
  induction fuel generalizing n ds with
  | zero => simp [Nat.toDigitsCore]
  | succ fuel ih =>
    simp only [Nat.toDigitsCore]
    by_cases h : n / 10 = 0
    · simp [h]
    · simp only [if_neg h]
      rw [ih (n / 10) (Nat.digitChar (n % 10) :: ds),
          ih (n / 10) [Nat.digitChar (n % 10)]]
      simp

theorem digitsVal_toDigitsCore (fuel n : Nat) (h : n ≤ fuel) :
    digitsVal (Nat.toDigitsCore 10 fuel n []) = n := by
  induction fuel generalizing n with
  | zero =>
    have hn : n = 0 := Nat.le_zero.mp h
    subst hn
    simp [Nat.toDigitsCore, digitsVal]
  | succ fuel ih =>
    by_cases hdiv : n / 10 = 0
    · have hlt : n < 10 := by omega
      have hmod : n % 10 = n := Nat.mod_eq_of_lt hlt
      simp [Nat.toDigitsCore, hdiv, digitsVal, hmod, digitVal_digitChar hlt]
    · have hpos : 0 < n := by
        rcases Nat.eq_zero_or_pos n with h0 | h0
        · subst h0; simp at hdiv
        · exact h0
      simp only [Nat.toDigitsCore, if_neg hdiv]
      rw [toDigitsCore_shift, digitsVal_append]
      have hfuel : n / 10 ≤ fuel := by
        have h1 : n / 10 < n := Nat.div_lt_self hpos (by omega)
        omega
      rw [ih (n / 10) hfuel,
          digitVal_digitChar (Nat.mod_lt n (by omega) : n % 10 < 10)]
      omega

theorem natRepr_injective : Function.Injective Nat.repr := by
  intro m n h
  have hd : Nat.toDigits 10 m = Nat.toDigits 10 n := by
    have := congrArg String.data h
    simpa [Nat.repr, List.asString] using this
  have hm := digitsVal_toDigitsCore (m + 1) m (Nat.le_succ m)
  have hn := digitsVal_toDigitsCore (n + 1) n (Nat.le_succ n)
  simp only [Nat.toDigits] at hd
  rw [hd, hn] at hm
  exact hm.symm

/-! ### Cross-Frame Locator Composer

Embedding of `WebRecorder._compose_cross_frame_xpath`
(`src/recording/recorder.py` lines 3792-3852) and the host-side chain
rebuild in `_record_operation_core` (lines 2159-2172).  A `FrameLevel` is
one entry of the in-page frame trace's `chain`; `none` fields model absent
dictionary keys, and empty strings are falsy exactly as in Python. -/

structure FrameLevel where
  xpath_in_parent : Option String
  tag : Option String
  index : Option Nat
  frame_url : Option String
  deriving Repr, DecidableEq

structure FrameTrace where
  chain : List FrameLevel
  current_frame_url : Option String
  deriving Repr, DecidableEq

/-- Truthiness of an optional string, as Python `if x:` (absent key or
empty string is falsy). -/
def optTruthy : Option String → Bool
  | none => false
  | some s => !(s == "")

/-- Tag of a frame-chain level: `(level.get('tag') or 'iframe').lower()`. -/
def levelTag (level : FrameLevel) : String :=
  pyLower (match level.tag with
    | some t => if t == "" then "iframe" else t
    | none => "iframe")

/-- Placeholder xpath `//tag[index+1]` (or bare `//tag` without an integer
index) for a level with no usable `xpath_in_parent`. -/
def levelFallbackSeg (level : FrameLevel) : String :=
  match level.index with
  | some i => "//" ++ levelTag level ++ "[" ++ Nat.repr (i + 1) ++ "]"
  | none => "//" ++ levelTag level

/-- Xpath segment of one chain level: `xpath_in_parent` when it is a
non-blank string, otherwise the placeholder. -/
def levelXpSeg (level : FrameLevel) : String :=
  match level.xpath_in_parent with
  | some xp =>
    if !(xp == "") && !(pyStrip xp == "") then xp else levelFallbackSeg level
  | none => levelFallbackSeg level

/-- Segments contributed by one level of the frame chain: the xpath segment,
followed by a `URL:` segment when the level carries a truthy `frame_url`. -/
def levelSegments (level : FrameLevel) : List String :=
  match level.frame_url with
  | some u => if u == "" then [levelXpSeg level] else [levelXpSeg level, "URL:" ++ u]
  | none => [levelXpSeg level]

/-- Leading `PAGE:` segment for a truthy top-level page URL. -/
def pageSegsOf : Option String → List String
  | some u => if u == "" then [] else ["PAGE:" ++ u]
  | none => []

/-- Per-level segments of the whole frame chain. -/
def chainSegsOf : Option FrameTrace → List String
  | some t => t.chain.flatMap levelSegments
  | none => []

/-- Trailing `URL:` segment for a truthy frame URL. -/
def urlSegsOf : Option String → List String
  | some u => if u == "" then [] else ["URL:" ++ u]
  | none => []

/-- Trailing `URL:` segment of the trace's `current_frame_url`, appended
only when the chain is non-empty (the source skips it for an empty chain). -/
def curSegsOf : Option FrameTrace → List String
  | some t => if t.chain.isEmpty then [] else urlSegsOf t.current_frame_url
  | none => []

/-- Inner-xpath segment, appended only when the inner xpath is a non-blank
string. -/
def innerSegsOf : Option String → List String
  | some ix => if !(ix == "") && !(pyStrip ix == "") then [ix] else []
  | none => []

/-- Segment list built by `_compose_cross_frame_xpath` before the leading
duplicate collapse: optional `PAGE:` segment, per-level segments, the
trace's `current_frame_url`, then the inner xpath when non-blank. -/
def composeSegments (frame_trace : Option FrameTrace) (inner_xpath : Option String)
    (top_page_url : Option String) : List String :=
  pageSegsOf top_page_url ++ chainSegsOf frame_trace ++ curSegsOf frame_trace
    ++ innerSegsOf inner_xpath

/-- Embedding of Python `' -> '.join(segments)`. -/
def joinSegs : List String → String
  | [] => ""
  | [a] => a
  | a :: b :: rest => a ++ " -> " ++ joinSegs (b :: rest)

/-- Leading duplicate collapse: when the first segment is `PAGE:<u>` and the
second is `URL:<u>` with the same `u`, the second is dropped
(`segments.pop(1)` in the source). -/
def collapseLeadingDup (segs : List String) : List String :=
  match segs with
  | a :: b :: rest =>
    if pyStartsWith a "PAGE:" && pyStartsWith b "URL:" && (pyDrop a 5 == pyDrop b 4)
    then a :: rest
    else a :: b :: rest
  | _ => segs

/-- Embedding of `WebRecorder._compose_cross_frame_xpath`: compose the frame
chain and the inner xpath into one ` -> `-joined path string. -/
def composeCrossFrameXpath (frame_trace : Option FrameTrace) (inner_xpath : Option String)
    (top_page_url : Option String) : String :=
  let segs := composeSegments frame_trace inner_xpath top_page_url
  if segs.isEmpty then
    match inner_xpath with
    | some ix => ix
    | none => ""
  else
    joinSegs (collapseLeadingDup segs)

/-- Segment list of the Playwright chain rebuild in `_record_operation_core`
(lines 2164-2172): optional `PAGE:` segment, the host-computed iframe xpath
chain, `URL:<click_frame_url>`, then the inner xpath when truthy.  The
source only executes it when `py_chain` is non-empty. -/
def rebuildChainSegments (page_url : Option String) (py_chain : List String)
    (click_frame_url : String) (inner_xpath : Option String) : List String :=
  pageSegsOf page_url
    ++ py_chain
    ++ ["URL:" ++ click_frame_url]
    ++ (if optTruthy inner_xpath then [inner_xpath.getD ""] else [])

/-- Rebuilt display path (` -> `-joined), as stored into `operation['xpath']`. -/
def rebuildChainXpath (page_url : Option String) (py_chain : List String)
    (click_frame_url : String) (inner_xpath : Option String) : String :=
  joinSegs (rebuildChainSegments page_url py_chain click_frame_url inner_xpath)

/-! ### Host-side frame-chain recomputation

Embedding of `WebRecorder._compute_frame_chain_via_playwright`
(lines 3854-3929).  The evaluated in-page script walks all `iframe`/`frame`
elements of the top document; each element is modelled by its `src`
attribute together with the xpath the script's `buildXPath` computed for it
(`none` when `buildXPath` returned null).  The host then sorts the matches
by `(len(s.split('/')), len(s))` and keeps the first; we embed
head-of-stable-sort as the first element attaining the minimal key. -/

structure IFrameEl where
  src : String
  builtXpath : Option String
  deriving Repr, DecidableEq

/-- Match test of the in-page script: `f.src` is truthy and equals the
target URL or contains it or is contained in it. -/
def srcMatches (src target : String) : Bool :=
  !(src == "") && (src == target || pyContains src target || pyContains target src)

/-- Candidate xpaths pushed by the in-page script: xpaths of the matching
iframes for which `buildXPath` produced a value. -/
def frameChainCandidates (iframes : List IFrameEl) (target : String) : List String :=
  iframes.filterMap (fun f => if srcMatches f.src target then f.builtXpath else none)

/-- Sort key used by the host: number of `/`-split pieces, then character
length. -/
def chainSortKey (s : String) : Nat × Nat :=
  (pySplitCount s '/', s.data.length)

/-- Strict lexicographic comparison of sort keys. -/
def keyLt (a b : Nat × Nat) : Bool :=
  a.1 < b.1 || (a.1 == b.1 && a.2 < b.2)

/-- First element of the list attaining the minimal `chainSortKey`; this is
the head of Python's stable `list.sort(key=...)`. -/
def firstMinByKey (x : String) : List String → String
  | [] => x
  | y :: ys => firstMinByKey (if keyLt (chainSortKey y) (chainSortKey x) then y else x) ys

/-- Embedding of `_compute_frame_chain_via_playwright`: the singleton list
holding the minimal-key matching xpath, or `[]` when nothing matches. -/
def computeFrameChainViaPlaywright (iframes : List IFrameEl) (target : String) :
    List String :=
  match frameChainCandidates iframes target with
  | [] => []
  | x :: xs => [firstMinByKey x xs]

/-! ### Operations and recorder state

Embedding of the mutable recorder state initialized in
`WebRecorder.__init__` (lines 44-70), restricted to the fields the recording
log logic touches: `operations`, `last_input_by_selector`, the browser-event
step counter of `_setup_event_listeners` (line 1763), and the screenshot
files on disk under the session directory.  `assigned` is a ghost trace of
every step id in assignment order, used to state the step-id discipline.
`pending_input_operations` is omitted: nothing in the source ever inserts
into it, so `_cancel_pending_flush_for_selector` never finds a task. -/

/-- DOM context stored on an operation: the event's eager element snapshot,
a live captured context, or the degraded error record. -/
inductive DomContext
  | snapshot (info : String)
  | liveCapture (info : String)
  | errorCtx (msg : String) (selector : String)
  deriving Repr, DecidableEq

/-- One entry of `self.operations` (full operations from
`_record_operation_core`, lines 2125-2141, with `error` only set on the
fallback entries of lines 2192-2199, whose missing keys are modelled by
empty/none fields). -/
structure Operation where
  step_id : Nat
  action : String
  selector : String
  value : String
  screenshot : Option String
  dom_context : DomContext
  xpath : Option String
  inner_xpath : Option String
  error : Option String
  deriving Repr, DecidableEq

/-- Screenshot file name `screenshots/step_{step_id}.png`. -/
def screenshotPath (step_id : Nat) : String :=
  "screenshots/step_" ++ Nat.repr step_id ++ ".png"

/-- Event payload handed to the recorder, with Booleans standing for the
success of each fallible capture step of `_record_operation_core`:
`crash` models an exception escaping the whole body (fallback path),
`screenshotOk` the highlighted screenshot existing on disk afterwards,
`domOk` the snapshot/live DOM context capture, `composeOk` the cross-frame
composition call. -/
structure EventData where
  selector : String
  value : String
  xpath : Option String
  frame_trace : Option FrameTrace
  frame_url : Option String
  page_url : Option String
  py_chain : List String
  snapshotInfo : Option String
  crash : Option String
  screenshotOk : Bool
  domOk : Bool
  composeOk : Bool
  deriving Repr, DecidableEq

structure RecorderState where
  operations : List Operation
  files : List String
  last_input_by_selector : List (String × Nat × Option String)
  stepCounter : Nat
  assigned : List Nat
  deriving Repr, DecidableEq

def initRecorderState : RecorderState :=
  { operations := [], files := [], last_input_by_selector := [],
    stepCounter := 0, assigned := [] }

/-- Python dict read (`d.get(k)`). -/
def dictGet {α : Type} (d : List (String × α)) (k : String) : Option α :=
  (d.find? (fun p => p.1 == k)).map (·.2)

/-- Python dict write (`d[k] = v`): replace the entry in place when the key
is present (keys are unique by construction), else append. -/
def dictSet {α : Type} : List (String × α) → String → α → List (String × α)
  | [], k, v => [(k, v)]
  | p :: d, k, v => if p.1 == k then (k, v) :: d else p :: dictSet d k v

/-- The operation dictionary `_record_operation_core` appends on its
non-crashing path, including the composed cross-frame xpath and the
Playwright chain rebuild of lines 2159-2172. -/
def makeOperation (action : String) (ev : EventData) (step_id : Nat) : Operation :=
  let screenshot := if ev.screenshotOk then some (screenshotPath step_id) else none
  let dom := if ev.domOk then
      (match ev.snapshotInfo with
        | some info => DomContext.snapshot info
        | none => DomContext.liveCapture ev.selector)
    else DomContext.errorCtx "capture_failed" ev.selector
  let composed := if ev.composeOk then
      some (composeCrossFrameXpath ev.frame_trace ev.xpath ev.page_url)
    else ev.xpath
  let rebuilt := if optTruthy ev.frame_url && !ev.py_chain.isEmpty then
      some (rebuildChainXpath ev.page_url ev.py_chain (ev.frame_url.getD "") ev.xpath)
    else composed
  { step_id := step_id, action := action, selector := ev.selector,
    value := ev.value, screenshot := screenshot, dom_context := dom,
    xpath := rebuilt, inner_xpath := ev.xpath, error := none }

/-- Minimal fallback operation of lines 2192-2199 (only `step_id`,
`timestamp`, `action`, the error text and the event-data description are
present in the source; missing keys are `none`/empty here). -/
def fallbackOperation (action : String) (step_id : Nat) (msg : String) : Operation :=
  { step_id := step_id, action := action, selector := "", value := "",
    screenshot := none, dom_context := DomContext.errorCtx msg "",
    xpath := none, inner_xpath := none, error := some msg }

/-- Embedding of `_record_operation_core` (lines 1965-2205): on the normal
path append the full operation (and its screenshot file when the capture
succeeded); when an exception escapes the body, append the minimal fallback
operation instead.  Exactly one operation is appended either way. -/
def recordOperationCore (s : RecorderState) (action : String) (ev : EventData)
    (step_id : Nat) : RecorderState × Operation :=
  match ev.crash with
  | some msg =>
    let op := fallbackOperation action step_id msg
    ({ s with operations := s.operations ++ [op] }, op)
  | none =>
    let op := makeOperation action ev step_id
    let files := if ev.screenshotOk then s.files ++ [screenshotPath step_id] else s.files
    ({ s with operations := s.operations ++ [op], files := files }, op)

/-- Embedding of `_remove_screenshot_file` (lines 2207-2220): unlink the
file when the operation recorded a path and the file exists. -/
def removeScreenshotFile (files : List String) : Option String → List String
  | none => files
  | some p => files.filter (fun q => !(q == p))

/-- Embedding of `_delete_operation_by_step_id` (lines 2222-2241): find the
first operation with the given step id, delete its screenshot file, and
remove it from the list; do nothing when absent. -/
def deleteOperationByStepId (s : RecorderState) (step_id : Nat) : RecorderState :=
  match s.operations.find? (fun op => op.step_id == step_id) with
  | none => s
  | some op =>
    { s with
      files := removeScreenshotFile s.files op.screenshot,
      operations := s.operations.eraseP (fun o => o.step_id == step_id) }

/-- Embedding of `_record_input_with_replacement` (lines 2259-2282): read
the previous surviving input for the selector, record the new operation,
delete the previous one (when distinct), and update the per-selector map. -/
def recordInputWithReplacement (s : RecorderState) (ev : EventData)
    (step_id : Nat) : RecorderState :=
  let prev := dictGet s.last_input_by_selector ev.selector
  let rec1 := recordOperationCore s "input" ev step_id
  let s2 := match prev with
    | some (prevId, _) => if prevId ≠ step_id then deleteOperationByStepId rec1.1 prevId else rec1.1
    | none => rec1.1
  { s2 with
    last_input_by_selector :=
      dictSet s2.last_input_by_selector ev.selector (step_id, rec1.2.screenshot) }

/-- Embedding of `_handle_merged_input` (lines 2366-2389): events without a
selector are recorded directly, the rest go through replacement mode. -/
def handleMergedInput (s : RecorderState) (ev : EventData) (step_id : Nat) :
    RecorderState :=
  if ev.selector == "" then (recordOperationCore s "input" ev step_id).1
  else recordInputWithReplacement s ev step_id

/-- One unit of work hitting the recorder: a browser click/navigation event,
a browser input event, or a programmatic injection through
`record_programmatic_action`. -/
inductive RecEvent
  | click (ev : EventData)
  | navigation (ev : EventData)
  | input (ev : EventData)
  | programmatic (action : String) (ev : EventData)

/-- Step-id assignment and dispatch: browser events use the shared
`step_counter` closure of `_setup_event_listeners` (lines 1763-1804), while
`record_programmatic_action` (line 1441) uses `len(self.operations) + 1`.
The ghost `assigned` trace records each id at its assignment point. -/
def recStep (s : RecorderState) (e : RecEvent) : RecorderState :=
  match e with
  | .click ev =>
    let n := s.stepCounter + 1
    (recordOperationCore { s with stepCounter := n, assigned := s.assigned ++ [n] }
      "click" ev n).1
  | .navigation ev =>
    let n := s.stepCounter + 1
    (recordOperationCore { s with stepCounter := n, assigned := s.assigned ++ [n] }
      "navigation" ev n).1
  | .input ev =>
    let n := s.stepCounter + 1
    handleMergedInput { s with stepCounter := n, assigned := s.assigned ++ [n] } ev n
  | .programmatic action ev =>
    let n := s.operations.length + 1
    (recordOperationCore { s with assigned := s.assigned ++ [n] } action ev n).1

def runRecorder (trace : List RecEvent) : RecorderState :=
  trace.foldl recStep initRecorderState

/-- Discriminator for `record_programmatic_action` injections. -/
def RecEvent.isProgrammatic : RecEvent → Bool
  | .programmatic _ _ => true
  | _ => false

/-- Event payload of a keystroke on a field: a selector, the field's current
value, and whether the highlighted screenshot succeeded; capture and
composition succeed and nothing crashes. -/
def inputEventData (sel v : String) (ok : Bool) : EventData :=
  { selector := sel, value := v, xpath := none, frame_trace := none,
    frame_url := none, page_url := none, py_chain := [], snapshotInfo := none,
    crash := none, screenshotOk := ok, domOk := true, composeOk := true }

/-- Trace of input events on one selector, one per `(value, screenshotOk)`
pair. -/
def inputTrace (sel : String) (cs : List (String × Bool)) : List RecEvent :=
  cs.map (fun c => RecEvent.input (inputEventData sel c.1 c.2))

/-- Recorder state after `k ≥ 1` input events on selector `sel`, of which the
last carried value `v` with screenshot success `ok`: one surviving
operation, at most one screenshot file, one map entry, `k` assigned ids. -/
def midState (sel : String) (k : Nat) (v : String) (ok : Bool) : RecorderState :=
  { operations := [makeOperation "input" (inputEventData sel v ok) k],
    files := if ok then [screenshotPath k] else [],
    last_input_by_selector :=
      [(sel, k, if ok then some (screenshotPath k) else none)],
    stepCounter := k,
    assigned := List.range' 1 k }

/-! ### Screenshot Highlighter

Embedding of the control flow of `WebRecorder._take_highlighted_screenshot`
(lines 2511-2948).  Every browser interaction that can fail or time out is a
Boolean of `HighlightWorld`; the existence probe's timeout and evaluation
failures are already folded into `elementFound` because the source maps both
to `{'exists': False}` (lines 2589-2597).  The result records whether a
screenshot file was produced, which injected DOM nodes are still in the
document on exit, and whether an exception escaped to the caller. -/

inductive InjectedNode
  | highlightStyle
  | frameInfoBox
  | topInfoBox
  deriving Repr, DecidableEq

structure HighlightWorld where
  pageAvailable : Bool
  elementFound : Bool
  highlightInjectOk : Bool
  frameBoxRemoveOk : Bool
  topBoxInjectOk : Bool
  mainScreenshotOk : Bool
  plainScreenshotOk : Bool
  cleanupEvalOk : Bool
  topBoxRemoveOk : Bool
  fallbackScreenshotOk : Bool
  deriving Repr, DecidableEq

structure HighlightResult where
  screenshotSaved : Bool
  injectedRemaining : List InjectedNode
  raised : Bool
  deriving Repr, DecidableEq

/-- Embedding of `_take_highlighted_screenshot`.  On the found path the
highlight evaluation injects the style and the frame info box, the frame box
is removed, the top-level info box is injected, the screenshot is taken,
then cleanup removes the remaining nodes; each step is skipped when its
Boolean is false (timeout or failure, all caught in the source).  On the
missing-element path no node is injected and the screenshot is taken twice
(lines 2845 and 2904).  When the page object is unavailable the raised
exception is caught by the outer handler, which attempts one plain fallback
screenshot; no path re-raises to the caller. -/
def takeHighlightedScreenshot (w : HighlightWorld) : HighlightResult :=
  if !w.pageAvailable then
    { screenshotSaved := false, injectedRemaining := [], raised := false }
  else if w.elementFound then
    let afterInject : List InjectedNode :=
      if w.highlightInjectOk then [.highlightStyle, .frameInfoBox] else []
    let afterFrameRemove :=
      if w.frameBoxRemoveOk then afterInject.filter (fun n => !(n == .frameInfoBox))
      else afterInject
    let afterTopBox :=
      if w.topBoxInjectOk then afterFrameRemove ++ [.topInfoBox] else afterFrameRemove
    let afterCleanup :=
      if w.cleanupEvalOk then
        afterTopBox.filter (fun n => !(n == .highlightStyle) && !(n == .frameInfoBox))
      else afterTopBox
    let afterTopRemove :=
      if w.topBoxRemoveOk then afterCleanup.filter (fun n => !(n == .topInfoBox))
      else afterCleanup
    { screenshotSaved := w.mainScreenshotOk,
      injectedRemaining := afterTopRemove, raised := false }
  else
    { screenshotSaved := w.mainScreenshotOk || w.plainScreenshotOk,
      injectedRemaining := [], raised := false }

/-! ### In-Page Event Capture and delivery channels

Embedding of the push/poll reconciliation: the context init script of
`WebRecorder.start_recording` tags an event `__delivered` and calls the
bridge before enqueueing it (recorder.py lines 608-610 and 632-635), and the
polling drain of `EventListener.setup_listeners` skips every event carrying
the tag (event_listener.py lines 395-397). -/

structure CapturedEvent where
  eventType : String
  delivered : Bool
  pushHandled : Bool
  deriving Repr, DecidableEq

/-- Capture of one in-page event: when the bridge function exists the
`__delivered` tag is set before the emit call, and the push path hands the
event to a recorder callback exactly when the emit call succeeds.  The event
is appended to the in-page queue in every case. -/
def captureEvent (eventType : String) (emitAvailable emitOk : Bool) : CapturedEvent :=
  { eventType := eventType,
    delivered := emitAvailable,
    pushHandled := emitAvailable && emitOk }

/-- Events the polling drain of `check_events_loop` hands to recorder
callbacks: exactly the queued events without the `__delivered` tag. -/
def pollDrainHandles (queue : List CapturedEvent) : List CapturedEvent :=
  queue.filter (fun e => !e.delivered)

/-! ### HTML Snapshot Monitor

Embedding of `_monitor_html_changes` (lines 2444-2492) and
`_update_html_cache` (lines 2494-2509).  Hashing is abstracted: a sample
carries the md5 hex digest the source computes from the page HTML. -/

structure CacheEntry where
  html : String
  last_updated : String
  content_hash : String
  size_kb : Nat
  deriving Repr, DecidableEq

structure TimelineEntry where
  url : String
  timestamp : String
  title : String
  deriving Repr, DecidableEq

structure MonitorState where
  html_cache : List (String × CacheEntry)
  url_timeline : List TimelineEntry
  last_url : Option String
  consecutive_same : Nat
  cached_page_title : String
  deriving Repr, DecidableEq

def initMonitorState : MonitorState :=
  { html_cache := [], url_timeline := [], last_url := none,
    consecutive_same := 0, cached_page_title := "" }

/-- Append condition of the URL timeline:
`not self.url_timeline or self.url_timeline[-1]['url'] != url`. -/
def timelineNeedsAppend (tl : List TimelineEntry) (url : String) : Bool :=
  match tl.getLast? with
  | none => true
  | some e => !(e.url == url)

/-- Embedding of `_update_html_cache`: overwrite the per-URL cache entry and
append a timeline record unless the last record already carries this URL. -/
def updateHtmlCache (s : MonitorState) (url html timestamp content_hash : String) :
    MonitorState :=
  let entry : CacheEntry :=
    { html := html, last_updated := timestamp, content_hash := content_hash,
      size_kb := html.utf8ByteSize / 1024 }
  let title := if s.cached_page_title == "" then "Unknown" else s.cached_page_title
  { s with
    html_cache := dictSet s.html_cache url entry,
    url_timeline :=
      if timelineNeedsAppend s.url_timeline url then
        s.url_timeline ++ [{ url := url, timestamp := timestamp, title := title }]
      else s.url_timeline }

/-- One iteration of the `_monitor_html_changes` loop body for a sampled
`(url, html, hash)` triple: a URL change forces an update; otherwise the
entry is refreshed only when the stored content hash differs, and unchanged
content bumps the quiescence counter (clamped back to 8 past 10). -/
def monitorSample (s : MonitorState) (url html timestamp content_hash : String) :
    MonitorState :=
  if some url ≠ s.last_url then
    updateHtmlCache { s with consecutive_same := 0, last_url := some url }
      url html timestamp content_hash
  else
    let stored := (dictGet s.html_cache url).map (·.content_hash)
    if stored ≠ some content_hash then
      { updateHtmlCache s url html timestamp content_hash with consecutive_same := 0 }
    else
      let c := s.consecutive_same + 1
      { s with consecutive_same := if c > 10 then 8 else c }

/-- Lexicographic order on `chainSortKey` values: fewer path pieces first,
shorter string on ties. -/
def keyLe (a b : Nat × Nat) : Prop :=
  a.1 < b.1 ∨ (a.1 = b.1 ∧ a.2 ≤ b.2)

/-- Absence of an adjacent duplicate pair: it is not the case that the first
segment is `PAGE:<u>` and the second `URL:<u>` for the same `u`. -/
def noPageUrlDup (a b : String) : Prop :=
  ¬ (pyStartsWith a "PAGE:" = true ∧ pyStartsWith b "URL:" = true ∧
     pyDrop a 5 = pyDrop b 4)

/-! ## Theorems -/

/-! ### Dictionary and monitor helper lemmas -/

theorem dictGet_dictSet_self {α : Type} (d : List (String × α)) (k : String) (v : α) :
    dictGet (dictSet d k v) k = some v := by
  induction d with
  | nil => simp [dictGet, dictSet, List.find?]
  | cons p d ih =>
    simp only [dictSet]
    by_cases h : (p.1 == k) = true
    · simp [h, dictGet, List.find?]
    · simp only [if_neg h]
      simpa [dictGet, List.find?, h] using ih

theorem monitorSample_lastUrl (s : MonitorState) (url html ts h : String) :
    (monitorSample s url html ts h).last_url = some url := by
  by_cases hc : some url ≠ s.last_url
  · simp only [monitorSample, if_pos hc, updateHtmlCache]
  · push_neg at hc
    have hc' : ¬ (some url ≠ s.last_url) := fun hh => hh hc
    by_cases hs : (dictGet s.html_cache url).map (·.content_hash) ≠ some h
    · simp only [monitorSample, if_neg hc', if_pos hs, updateHtmlCache]
      exact hc.symm
    · simp only [monitorSample, if_neg hc', if_neg hs]
      exact hc.symm

theorem monitorSample_storedHash (s : MonitorState) (url html ts h : String) :
    ∃ e, dictGet (monitorSample s url html ts h).html_cache url = some e ∧
      e.content_hash = h := by
  by_cases hc : some url ≠ s.last_url
  · refine ⟨{ html := html, last_updated := ts, content_hash := h,
              size_kb := html.utf8ByteSize / 1024 }, ?_, rfl⟩
    simp only [monitorSample, if_pos hc, updateHtmlCache]
    exact dictGet_dictSet_self _ _ _
  · by_cases hs : (dictGet s.html_cache url).map (·.content_hash) ≠ some h
    · refine ⟨{ html := html, last_updated := ts, content_hash := h,
                size_kb := html.utf8ByteSize / 1024 }, ?_, rfl⟩
      simp only [monitorSample, if_neg hc, if_pos hs, updateHtmlCache]
      exact dictGet_dictSet_self _ _ _
    · push_neg at hs
      rcases Option.map_eq_some'.mp hs with ⟨e, he, hhash⟩
      refine ⟨e, ?_, hhash⟩
      have hs' : ¬ ((dictGet s.html_cache url).map (·.content_hash) ≠ some h) :=
        fun hh => hh hs
      simp only [monitorSample, if_neg hc, if_neg hs']
      exact he

/-! ### C7 -/

/-- C7: the recorder never silently drops an event.  For every action,
event payload and step id, and for every combination of internal failures
(screenshot, DOM capture, composition, or a crash of the whole body),
`_record_operation_core` appends exactly one operation to the log; the
appended operation carries the given step id, and exactly on the crash path
it is the minimal fallback operation carrying the error string. -/
theorem record_operation_always_appends (s : RecorderState) (action : String)
    (ev : EventData) (step_id : Nat) :
    (recordOperationCore s action ev step_id).1.operations
      = s.operations ++ [(recordOperationCore s action ev step_id).2] ∧
    (recordOperationCore s action ev step_id).2.step_id = step_id ∧
    (recordOperationCore s action ev step_id).2.action = action ∧
    (recordOperationCore s action ev step_id).2.error = ev.crash := by
  cases hcrash : ev.crash with
  | some msg => simp [recordOperationCore, hcrash, fallbackOperation]
  | none => simp [recordOperationCore, hcrash, makeOperation]

/-! ### C8 -/

/-- C8: at-most-once event processing.  An event handed to a recorder
callback by the push path always carries the delivered tag (the tag is set
before the emit call), and the polling drain hands only untagged events to
callbacks; hence no captured event is processed by both paths. -/
theorem push_poll_at_most_once :
    (∀ (t : String) (emitAvailable emitOk : Bool),
      ((captureEvent t emitAvailable emitOk).pushHandled
        && !(captureEvent t emitAvailable emitOk).delivered) = false) ∧
    (∀ queue : List CapturedEvent,
      (pollDrainHandles queue).all (fun e => !e.delivered) = true) := by
  constructor
  · intro t a ok
    cases a <;> cases ok <;> rfl
  · intro queue
    rw [List.all_eq_true]
    intro e he
    exact (List.mem_filter.mp he).2

/-! ### C6 -/

/-- C6: highlighter safety on a missing element.  When the page is
reachable, the locator resolves to no element, and the capture itself
succeeds, `_take_highlighted_screenshot` produces a screenshot, leaves no
injected highlight or overlay node in the document, and raises nothing. -/
theorem highlighter_missing_element_safe (w : HighlightWorld)
    (hpage : w.pageAvailable = true) (hfound : w.elementFound = false)
    (hshot : w.mainScreenshotOk = true) :
    takeHighlightedScreenshot w =
      { screenshotSaved := true, injectedRemaining := [], raised := false } := by
  simp [takeHighlightedScreenshot, hpage, hfound, hshot]

/-- Witness for C6 at a concrete world. -/
theorem highlighter_missing_element_safe_witness :
    takeHighlightedScreenshot
      { pageAvailable := true, elementFound := false, highlightInjectOk := true,
        frameBoxRemoveOk := true, topBoxInjectOk := true, mainScreenshotOk := true,
        plainScreenshotOk := false, cleanupEvalOk := true, topBoxRemoveOk := true,
        fallbackScreenshotOk := false } =
      { screenshotSaved := true, injectedRemaining := [], raised := false } :=
  highlighter_missing_element_safe _ rfl rfl rfl

/-! ### C10 -/

theorem updateHtmlCache_chain (s : MonitorState) (url html ts h : String)
    (hc : s.url_timeline.Chain' (fun a b => a.url ≠ b.url)) :
    (updateHtmlCache s url html ts h).url_timeline.Chain'
      (fun a b => a.url ≠ b.url) := by
  simp only [updateHtmlCache]
  cases hta : timelineNeedsAppend s.url_timeline url with
  | false => simpa [hta] using hc
  | true =>
    simp only [hta, if_true]
    rw [List.chain'_append]
    refine ⟨hc, List.chain'_singleton _, ?_⟩
    intro x hx y hy
    simp only [List.head?_cons, Option.mem_def, Option.some.injEq] at hy
    subst hy
    simp only [timelineNeedsAppend, Option.mem_def] at hta hx
    rw [hx] at hta
    simpa using hta

theorem foldl_updateHtmlCache_chain (ups : List (String × String × String × String))
    (s : MonitorState) (hc : s.url_timeline.Chain' (fun a b => a.url ≠ b.url)) :
    ((ups.foldl (fun s u => updateHtmlCache s u.1 u.2.1 u.2.2.1 u.2.2.2) s).url_timeline).Chain'
      (fun a b => a.url ≠ b.url) := by
  induction ups generalizing s with
  | nil => exact hc
  | cons u ups ih =>
    exact ih _ (updateHtmlCache_chain _ _ _ _ _ hc)

/-- C10: URL-timeline invariant.  After any sequence of HTML-cache updates
starting from the freshly initialized recorder, no two adjacent timeline
records carry the same URL; moreover a single update appends a record
exactly when the timeline is empty or its last record's URL differs from the
updated URL (so a repeated update of the current URL never appends, and a
URL change always does). -/
theorem url_timeline_no_adjacent_duplicates :
    (∀ ups : List (String × String × String × String),
      ((ups.foldl (fun s u => updateHtmlCache s u.1 u.2.1 u.2.2.1 u.2.2.2)
          initMonitorState).url_timeline).Chain' (fun a b => a.url ≠ b.url)) ∧
    (∀ (s : MonitorState) (url html ts h : String),
      (updateHtmlCache s url html ts h).url_timeline.length =
        if timelineNeedsAppend s.url_timeline url then s.url_timeline.length + 1
        else s.url_timeline.length) := by
  constructor
  · intro ups
    exact foldl_updateHtmlCache_chain ups initMonitorState (by simp [initMonitorState])
  · intro s url html ts h
    simp only [updateHtmlCache]
    cases hta : timelineNeedsAppend s.url_timeline url <;> simp [hta]

/-! ### C9 -/

/-- C9: HTML cache quiescence.  After sampling a URL, a second sample of the
same URL leaves the whole per-URL cache (hence the entry's hash and
last-updated timestamp) unchanged when the second content hash equals the
first, and rewrites the entry with the new hash and timestamp when it
differs. -/
theorem html_cache_quiescence (s : MonitorState)
    (url html1 ts1 h1 html2 ts2 h2 : String) :
    (h2 = h1 →
      (monitorSample (monitorSample s url html1 ts1 h1) url html2 ts2 h2).html_cache
        = (monitorSample s url html1 ts1 h1).html_cache) ∧
    (h2 ≠ h1 →
      dictGet (monitorSample (monitorSample s url html1 ts1 h1)
          url html2 ts2 h2).html_cache url
        = some { html := html2, last_updated := ts2, content_hash := h2,
                 size_kb := html2.utf8ByteSize / 1024 }) := by
  have hlast := monitorSample_lastUrl s url html1 ts1 h1
  obtain ⟨e, he, hhash⟩ := monitorSample_storedHash s url html1 ts1 h1
  set s1 := monitorSample s url html1 ts1 h1 with hs1
  have hcond : ¬ (some url ≠ s1.last_url) := by
    rw [hlast]
    exact fun hh => hh rfl
  have hstored : (dictGet s1.html_cache url).map (·.content_hash) = some h1 := by
    rw [he]
    simpa using hhash
  constructor
  · intro heq
    subst heq
    have hno : ¬ ((dictGet s1.html_cache url).map (·.content_hash) ≠ some h2) := by
      rw [hstored]
      exact fun hh => hh rfl
    simp only [monitorSample, if_neg hcond, if_neg hno]
  · intro hne
    have hyes : (dictGet s1.html_cache url).map (·.content_hash) ≠ some h2 := by
      rw [hstored]
      intro hh
      exact hne (Option.some.inj hh).symm
    simp only [monitorSample, if_neg hcond, if_pos hyes, updateHtmlCache]
    exact dictGet_dictSet_self _ _ _

/-- Witness for C9 at concrete samples. -/
theorem html_cache_quiescence_witness :
    ((monitorSample (monitorSample initMonitorState "https://e.com" "<p>x</p>" "t1" "H1")
        "https://e.com" "<p>x</p>" "t2" "H1").html_cache
      = (monitorSample initMonitorState "https://e.com" "<p>x</p>" "t1" "H1").html_cache) ∧
    dictGet (monitorSample (monitorSample initMonitorState "https://e.com" "<p>x</p>" "t1" "H1")
        "https://e.com" "<p>y</p>" "t2" "H2").html_cache "https://e.com"
      = some { html := "<p>y</p>", last_updated := "t2", content_hash := "H2",
               size_kb := "<p>y</p>".utf8ByteSize / 1024 } :=
  ⟨(html_cache_quiescence initMonitorState "https://e.com" "<p>x</p>" "t1" "H1"
      "<p>x</p>" "t2" "H1").1 rfl,
   (html_cache_quiescence initMonitorState "https://e.com" "<p>x</p>" "t1" "H1"
      "<p>y</p>" "t2" "H2").2 (by decide)⟩

/-! ### C3 -/

/-- C3 counterexample: with an empty frame-trace but a supplied top-level
page URL (and `_record_operation_core` always supplies `operation['page_url']`
at its compose call), the composer returns the `PAGE:`-prefixed two-segment
path, not exactly the inner xpath. -/
theorem compose_empty_trace_page_url_counterexample :
    composeCrossFrameXpath none (some "//div[1]") (some "https://example.com")
        = "PAGE:https://example.com -> //div[1]" ∧
    composeCrossFrameXpath none (some "//div[1]") (some "https://example.com")
        ≠ "//div[1]" := by
  constructor
  · rfl
  · decide

/-- C3 (amended): composing with an empty frame-trace (a missing trace or
one whose chain is empty) and no top-level page URL returns exactly the
inner xpath; when a non-empty page URL is supplied the result is the
`PAGE:<url>` segment joined with the inner xpath. -/
theorem compose_empty_frame_trace (ft : Option FrameTrace) (inner url : String)
    (hft : ft = none ∨ ∃ t, ft = some t ∧ t.chain = [])
    (hurl : url ≠ "") (hinner : pyStrip inner ≠ "")
    (hnu : pyStartsWith inner "URL:" = false) :
    composeCrossFrameXpath ft (some inner) none = inner ∧
    composeCrossFrameXpath ft (some inner) (some url) =
      "PAGE:" ++ url ++ " -> " ++ inner := by
  have hinner0 : inner ≠ "" := by
    intro h
    apply hinner
    rw [h]
    rfl
  have binner : (inner == "") = false := beq_eq_false_iff_ne.mpr hinner0
  have bstrip : (pyStrip inner == "") = false := beq_eq_false_iff_ne.mpr hinner
  have burl : (url == "") = false := beq_eq_false_iff_ne.mpr hurl
  rcases hft with hft | ⟨t, hft, hchain⟩ <;> subst hft <;>
    constructor <;>
    simp [composeCrossFrameXpath, composeSegments, pageSegsOf, chainSegsOf,
      curSegsOf, urlSegsOf, innerSegsOf, collapseLeadingDup, joinSegs,
      binner, bstrip, burl, hnu, *, String.append_assoc]

/-- Witness for C3's amended theorem at concrete inputs. -/
theorem compose_empty_frame_trace_witness :
    composeCrossFrameXpath none (some "//div[1]") none = "//div[1]" ∧
    composeCrossFrameXpath none (some "//div[1]") (some "https://example.com") =
      "PAGE:" ++ "https://example.com" ++ " -> " ++ "//div[1]" :=
  compose_empty_frame_trace none "//div[1]" "https://example.com"
    (Or.inl rfl) (by decide) (by decide) (by decide)

/-! ### C5 -/

theorem keyLt_iff (a b : Nat × Nat) :
    keyLt a b = true ↔ a.1 < b.1 ∨ (a.1 = b.1 ∧ a.2 < b.2) := by
  simp [keyLt]

theorem keyLe_refl (a : Nat × Nat) : keyLe a a :=
  Or.inr ⟨rfl, Nat.le_refl _⟩

theorem keyLe_trans {a b c : Nat × Nat} (h1 : keyLe a b) (h2 : keyLe b c) :
    keyLe a c := by
  rcases h1 with h1 | ⟨h1, h1'⟩ <;> rcases h2 with h2 | ⟨h2, h2'⟩ <;>
    simp only [keyLe] <;> omega

theorem keyLe_of_keyLt {a b : Nat × Nat} (h : keyLt a b = true) : keyLe a b := by
  rcases (keyLt_iff a b).mp h with h | ⟨h, h'⟩ <;> simp only [keyLe] <;> omega

theorem keyLe_of_not_keyLt {a b : Nat × Nat} (h : ¬ keyLt a b = true) :
    keyLe b a := by
  rw [keyLt_iff] at h
  simp only [keyLe]
  omega

theorem firstMinByKey_mem (x : String) (xs : List String) :
    firstMinByKey x xs ∈ x :: xs := by
  induction xs generalizing x with
  | nil => simp [firstMinByKey]
  | cons y ys ih =>
    simp only [firstMinByKey]
    by_cases h : keyLt (chainSortKey y) (chainSortKey x) = true
    · simp only [if_pos h]
      exact List.mem_cons.mpr (Or.inr (ih y))
    · simp only [if_neg h]
      rcases List.mem_cons.mp (ih x) with h' | h'
      · exact List.mem_cons.mpr (Or.inl h')
      · exact List.mem_cons.mpr (Or.inr (List.mem_cons.mpr (Or.inr h')))

theorem firstMinByKey_min (x : String) (xs : List String) :
    ∀ c ∈ x :: xs, keyLe (chainSortKey (firstMinByKey x xs)) (chainSortKey c) := by
  induction xs generalizing x with
  | nil =>
    intro c hc
    rcases List.mem_cons.mp hc with h | h
    · exact h ▸ keyLe_refl _
    · cases h
  | cons y ys ih =>
    intro c hc
    by_cases h : keyLt (chainSortKey y) (chainSortKey x) = true
    · rw [show firstMinByKey x (y :: ys) = firstMinByKey y ys from by
        simp [firstMinByKey, h]]
      have hminb : keyLe (chainSortKey (firstMinByKey y ys)) (chainSortKey y) :=
        ih y y (List.mem_cons_self _ _)
      rcases List.mem_cons.mp hc with h' | h'
      · rw [h']
        exact keyLe_trans hminb (keyLe_of_keyLt h)
      · exact ih y c h'
    · rw [show firstMinByKey x (y :: ys) = firstMinByKey x ys from by
        simp [firstMinByKey, h]]
      have hminb : keyLe (chainSortKey (firstMinByKey x ys)) (chainSortKey x) :=
        ih x x (List.mem_cons_self _ _)
      rcases List.mem_cons.mp hc with h' | h'
      · rw [h']
        exact hminb
      · rcases List.mem_cons.mp h' with h'' | h''
        · rw [h'']
          exact keyLe_trans hminb (keyLe_of_not_keyLt h)
        · exact ih x c (List.mem_cons.mpr (Or.inr h''))

/-- C5: shortest-candidate correction.  When at least one iframe of the top
document matches the target frame URL (and the in-page xpath build
succeeded for it), the host-side recomputation returns exactly one xpath,
and that xpath minimizes the number of `/`-split path pieces over all
matching candidates, with ties broken by shorter string length; when no
iframe matches, the recomputation returns the empty list. -/
theorem frame_chain_shortest (iframes : List IFrameEl) (target : String) :
    (frameChainCandidates iframes target = [] →
      computeFrameChainViaPlaywright iframes target = []) ∧
    (frameChainCandidates iframes target ≠ [] →
      ∃ m, computeFrameChainViaPlaywright iframes target = [m] ∧
        m ∈ frameChainCandidates iframes target ∧
        ∀ c ∈ frameChainCandidates iframes target,
          keyLe (chainSortKey m) (chainSortKey c)) := by
  constructor
  · intro h
    simp [computeFrameChainViaPlaywright, h]
  · intro h
    rcases hm : frameChainCandidates iframes target with _ | ⟨x, xs⟩
    · exact absurd hm h
    · refine ⟨firstMinByKey x xs, ?_, ?_, ?_⟩
      · simp [computeFrameChainViaPlaywright, hm]
      · exact firstMinByKey_mem x xs
      · exact firstMinByKey_min x xs

/-- Witness for C5: two iframes share the target URL; the returned xpath is
the one with fewer path pieces. -/
theorem frame_chain_shortest_witness :
    frameChainCandidates
        [{ src := "https://a.com/f", builtXpath := some "//html[1]/body[1]/div[1]/iframe[1]" },
         { src := "https://a.com/f", builtXpath := some "//html[1]/body[1]/iframe[2]" }]
        "https://a.com/f" ≠ [] ∧
    ∃ m, computeFrameChainViaPlaywright
        [{ src := "https://a.com/f", builtXpath := some "//html[1]/body[1]/div[1]/iframe[1]" },
         { src := "https://a.com/f", builtXpath := some "//html[1]/body[1]/iframe[2]" }]
        "https://a.com/f" = [m] ∧
      m ∈ frameChainCandidates
        [{ src := "https://a.com/f", builtXpath := some "//html[1]/body[1]/div[1]/iframe[1]" },
         { src := "https://a.com/f", builtXpath := some "//html[1]/body[1]/iframe[2]" }]
        "https://a.com/f" ∧
      ∀ c ∈ frameChainCandidates
        [{ src := "https://a.com/f", builtXpath := some "//html[1]/body[1]/div[1]/iframe[1]" },
         { src := "https://a.com/f", builtXpath := some "//html[1]/body[1]/iframe[2]" }]
        "https://a.com/f", keyLe (chainSortKey m) (chainSortKey c) :=
  ⟨by decide,
   (frame_chain_shortest
      [{ src := "https://a.com/f", builtXpath := some "//html[1]/body[1]/div[1]/iframe[1]" },
       { src := "https://a.com/f", builtXpath := some "//html[1]/body[1]/iframe[2]" }]
      "https://a.com/f").2 (by decide)⟩

/-! ### C4 -/

theorem chHasLead_nil (l : List Char) : chHasLead l [] = true := by
  cases l <;> rfl

theorem chHasLead_append (l r : List Char) : chHasLead (l ++ r) l = true := by
  induction l with
  | nil => exact chHasLead_nil r
  | cons a as ih => simp [chHasLead, ih]

theorem pyStartsWith_append (p s : String) : pyStartsWith (p ++ s) p = true := by
  simp only [pyStartsWith, String.data_append]
  exact chHasLead_append p.data s.data

theorem chHasLead_first_conflict {s : List Char} {a b : Char} {as bs : List Char}
    (hne : (a == b) = false) (h : chHasLead s (a :: as) = true) :
    chHasLead s (b :: bs) = false := by
  cases s with
  | nil => simp [chHasLead] at h
  | cons c cs =>
    simp only [chHasLead, Bool.and_eq_true, beq_iff_eq] at h
    rcases h with ⟨hca, -⟩
    subst hca
    simp [chHasLead, hne]

theorem not_page_of_slash {s : String} (h : pyStartsWith s "//" = true) :
    pyStartsWith s "PAGE:" = false :=
  chHasLead_first_conflict (by decide) h

theorem not_url_of_slash {s : String} (h : pyStartsWith s "//" = true) :
    pyStartsWith s "URL:" = false :=
  chHasLead_first_conflict (by decide) h

theorem not_page_of_url {s : String} (h : pyStartsWith s "URL:" = true) :
    pyStartsWith s "PAGE:" = false :=
  chHasLead_first_conflict (by decide) h

theorem noPageUrlDup_of_not_page {a b : String}
    (h : pyStartsWith a "PAGE:" = false) : noPageUrlDup a b := by
  rintro ⟨h1, -, -⟩
  rw [h] at h1
  cases h1

theorem noPageUrlDup_of_not_url {a b : String}
    (h : pyStartsWith b "URL:" = false) : noPageUrlDup a b := by
  rintro ⟨-, h2, -⟩
  rw [h] at h2
  cases h2

theorem levelFallbackSeg_slash (lvl : FrameLevel) :
    pyStartsWith (levelFallbackSeg lvl) "//" = true := by
  rcases h : lvl.index with _ | i
  · simp only [levelFallbackSeg, h]
    exact pyStartsWith_append "//" _
  · simp only [levelFallbackSeg, h, String.append_assoc]
    exact pyStartsWith_append "//" _

theorem levelXpSeg_slash (lvl : FrameLevel)
    (hxp : ∀ xp ∈ lvl.xpath_in_parent, pyStartsWith xp "//" = true) :
    pyStartsWith (levelXpSeg lvl) "//" = true := by
  rcases hx : lvl.xpath_in_parent with _ | xp
  · simp only [levelXpSeg, hx]
    exact levelFallbackSeg_slash lvl
  · simp only [levelXpSeg, hx]
    by_cases hb : (!(xp == "") && !(pyStrip xp == "")) = true
    · rw [if_pos hb]
      exact hxp xp (by simp [hx])
    · rw [if_neg hb]
      exact levelFallbackSeg_slash lvl

theorem levelSegments_shape (lvl : FrameLevel) :
    ∃ t, levelSegments lvl = levelXpSeg lvl :: t ∧
      ∀ sg ∈ t, pyStartsWith sg "URL:" = true := by
  rcases hf : lvl.frame_url with _ | u
  · exact ⟨[], by simp only [levelSegments, hf], by simp⟩
  · by_cases hu : (u == "") = true
    · exact ⟨[], by simp only [levelSegments, hf]; rw [if_pos hu], by simp⟩
    · refine ⟨["URL:" ++ u], ?_, ?_⟩
      · simp only [levelSegments, hf]
        rw [if_neg hu]
      · intro sg hsg
        rw [List.mem_singleton.mp hsg]
        exact pyStartsWith_append "URL:" u

theorem flatMap_levelSegments_shape (chain : List FrameLevel)
    (hxp : ∀ lvl ∈ chain, ∀ xp ∈ lvl.xpath_in_parent, pyStartsWith xp "//" = true) :
    (∀ sg ∈ chain.flatMap levelSegments,
      pyStartsWith sg "//" = true ∨ pyStartsWith sg "URL:" = true) ∧
    (chain.flatMap levelSegments = [] → chain = []) ∧
    (∀ a t, chain.flatMap levelSegments = a :: t → pyStartsWith a "//" = true) := by
  induction chain with
  | nil => exact ⟨by simp, fun _ => rfl, by simp⟩
  | cons l ls ih =>
    have hl : ∀ xp ∈ l.xpath_in_parent, pyStartsWith xp "//" = true :=
      hxp l (List.mem_cons_self _ _)
    have hls := ih (fun lvl hlvl => hxp lvl (List.mem_cons.mpr (Or.inr hlvl)))
    obtain ⟨t, ht, hturl⟩ := levelSegments_shape l
    refine ⟨?_, ?_, ?_⟩
    · intro sg hsg
      rw [List.flatMap_cons] at hsg
      rcases List.mem_append.mp hsg with hsg | hsg
      · rw [ht] at hsg
        rcases List.mem_cons.mp hsg with rfl | hsg
        · exact Or.inl (levelXpSeg_slash l hl)
        · exact Or.inr (hturl sg hsg)
      · exact hls.1 sg hsg
    · intro hnil
      rw [List.flatMap_cons, ht] at hnil
      cases hnil
    · intro a tl htl
      rw [List.flatMap_cons, ht] at htl
      injection htl with h1 h2
      rw [← h1]
      exact levelXpSeg_slash l hl


theorem pyDrop_append (p s : String) : pyDrop (p ++ s) p.data.length = s := by
  simp only [pyDrop, String.data_append, List.drop_left]

theorem urlSegsOf_url (ou : Option String) :
    ∀ sg ∈ urlSegsOf ou, pyStartsWith sg "URL:" = true := by
  intro sg hsg
  rcases ou with _ | u
  · simp [urlSegsOf] at hsg
  · simp only [urlSegsOf] at hsg
    by_cases hu : (u == "") = true
    · rw [if_pos hu] at hsg
      simp at hsg
    · rw [if_neg hu] at hsg
      rw [List.mem_singleton.mp hsg]
      exact pyStartsWith_append "URL:" u

theorem curSegsOf_url (ft : Option FrameTrace) :
    ∀ sg ∈ curSegsOf ft, pyStartsWith sg "URL:" = true := by
  intro sg hsg
  rcases ft with _ | t
  · simp [curSegsOf] at hsg
  · simp only [curSegsOf] at hsg
    by_cases he : t.chain.isEmpty = true
    · rw [if_pos he] at hsg
      simp at hsg
    · rw [if_neg he] at hsg
      exact urlSegsOf_url t.current_frame_url sg hsg

theorem innerSegsOf_slash (inner : Option String)
    (hinner : ∀ ix ∈ inner, pyStartsWith ix "//" = true) :
    ∀ sg ∈ innerSegsOf inner, pyStartsWith sg "//" = true := by
  intro sg hsg
  rcases inner with _ | ix
  · simp [innerSegsOf] at hsg
  · simp only [innerSegsOf] at hsg
    by_cases hb : (!(ix == "") && !(pyStrip ix == "")) = true
    · rw [if_pos hb] at hsg
      rw [List.mem_singleton.mp hsg]
      exact hinner ix rfl
    · rw [if_neg hb] at hsg
      simp at hsg

theorem chainSegsOf_empty_cur (ft : Option FrameTrace)
    (h : chainSegsOf ft = []) : curSegsOf ft = [] := by
  rcases ft with _ | t
  · rfl
  · simp only [chainSegsOf] at h
    have he : t.chain = [] := by
      cases hc : t.chain with
      | nil => rfl
      | cons l ls =>
        rw [hc, List.flatMap_cons] at h
        obtain ⟨tl, htl, -⟩ := levelSegments_shape l
        rw [htl] at h
        cases h
    simp [curSegsOf, he]

/-- Classification of the non-PAGE part of the composed segment list:
every element is an xpath (starts with `//`) or a `URL:` segment, and the
first element, when present, is an xpath. -/
theorem restSegs_shape (ft : Option FrameTrace) (inner : Option String)
    (hinner : ∀ ix ∈ inner, pyStartsWith ix "//" = true)
    (hchain : ∀ t ∈ ft, ∀ lvl ∈ t.chain, ∀ xp ∈ lvl.xpath_in_parent,
      pyStartsWith xp "//" = true) :
    (∀ sg ∈ chainSegsOf ft ++ curSegsOf ft ++ innerSegsOf inner,
      pyStartsWith sg "//" = true ∨ pyStartsWith sg "URL:" = true) ∧
    (∀ a t', chainSegsOf ft ++ curSegsOf ft ++ innerSegsOf inner = a :: t' →
      pyStartsWith a "//" = true) := by
  have hchainOf : ∀ sg ∈ chainSegsOf ft,
      pyStartsWith sg "//" = true ∨ pyStartsWith sg "URL:" = true := by
    rcases ft with _ | t
    · intro sg hsg
      simp [chainSegsOf] at hsg
    · exact (flatMap_levelSegments_shape t.chain (hchain t rfl)).1
  constructor
  · intro sg hsg
    rcases List.mem_append.mp hsg with hsg | hsg
    · rcases List.mem_append.mp hsg with hsg | hsg
      · exact hchainOf sg hsg
      · exact Or.inr (curSegsOf_url ft sg hsg)
    · exact Or.inl (innerSegsOf_slash inner hinner sg hsg)
  · intro a t' ht'
    cases hcs : chainSegsOf ft with
    | cons c cs =>
      rcases ft with _ | t
      · cases hcs
      · simp only [chainSegsOf] at hcs
        rw [show chainSegsOf (some t) = c :: cs from by simp only [chainSegsOf]; exact hcs]
          at ht'
        simp only [List.cons_append] at ht'
        injection ht' with h1 h2
        rw [← h1]
        exact (flatMap_levelSegments_shape t.chain (hchain t rfl)).2.2 c cs hcs
    | nil =>
      have hcur : curSegsOf ft = [] := chainSegsOf_empty_cur ft hcs
      rw [hcs, hcur, List.nil_append, List.nil_append] at ht'
      rcases inner with _ | ix
      · cases ht'
      · simp only [innerSegsOf] at ht'
        by_cases hb : (!(ix == "") && !(pyStrip ix == "")) = true
        · rw [if_pos hb] at ht'
          injection ht' with h1 h2
          rw [← h1]
          exact hinner ix rfl
        · rw [if_neg hb] at ht'
          cases ht'

theorem chain'_of_forall_left {α : Type} {R : α → α → Prop} (l : List α)
    (h : ∀ a ∈ l, ∀ b, R a b) : l.Chain' R := by
  induction l with
  | nil => exact List.chain'_nil
  | cons a l ih =>
    rw [List.chain'_cons']
    exact ⟨fun y _ => h a (List.mem_cons_self _ _) y,
           ih (fun x hx b => h x (List.mem_cons.mpr (Or.inr hx)) b)⟩

theorem chain'_noPageUrlDup_of_shape (page rest : List String)
    (hpage : page = [] ∨ ∃ u, page = ["PAGE:" ++ u])
    (hrest : ∀ sg ∈ rest, pyStartsWith sg "PAGE:" = false)
    (hhead : ∀ a t', rest = a :: t' → pyStartsWith a "URL:" = false) :
    (page ++ rest).Chain' noPageUrlDup := by
  have hrestChain : rest.Chain' noPageUrlDup :=
    chain'_of_forall_left rest
      (fun a ha _ => noPageUrlDup_of_not_page (hrest a ha))
  rcases hpage with rfl | ⟨u, rfl⟩
  · exact hrestChain
  · rw [List.singleton_append, List.chain'_cons']
    refine ⟨?_, hrestChain⟩
    intro y hy
    cases rest with
    | nil => cases hy
    | cons a t' =>
      simp only [List.head?_cons, Option.mem_def, Option.some.injEq] at hy
      rw [← hy]
      exact noPageUrlDup_of_not_url (hhead a t' rfl)

theorem collapseLeadingDup_id_of_shape (page rest : List String)
    (hpage : page = [] ∨ ∃ u, page = ["PAGE:" ++ u])
    (hrest : ∀ sg ∈ rest, pyStartsWith sg "PAGE:" = false)
    (hhead : ∀ a t', rest = a :: t' → pyStartsWith a "URL:" = false) :
    collapseLeadingDup (page ++ rest) = page ++ rest := by
  rcases hpage with rfl | ⟨u, rfl⟩
  · cases rest with
    | nil => rfl
    | cons a t =>
      cases t with
      | nil => rfl
      | cons b t2 =>
        simp only [List.nil_append, collapseLeadingDup]
        rw [hrest a (List.mem_cons_self _ _)]
        simp
  · cases rest with
    | nil => rfl
    | cons a t =>
      simp only [List.singleton_append, collapseLeadingDup]
      rw [hhead a t rfl]
      simp

/-- C4: duplicate-segment collapse.  A leading adjacent `PAGE:<u>` /
`URL:<u>` pair with the same URL is collapsed to the single `PAGE:` segment;
and for xpath-shaped inputs (every in-page xpath and every host-computed
chain xpath starts with `//`, as the generators produce them), neither the
pure composer's collapsed segment list nor the Playwright-rebuilt chain of
`_record_operation_core` contains any adjacent `PAGE:`/`URL:` pair with the
same URL — the persisted operation xpath is the ` -> `-join of these very
segment lists. -/
theorem no_adjacent_page_url_duplicate
    (ft : Option FrameTrace) (inner url : Option String)
    (py_chain : List String) (cfu : String)
    (hinner : ∀ ix ∈ inner, pyStartsWith ix "//" = true)
    (hchain : ∀ t ∈ ft, ∀ lvl ∈ t.chain, ∀ xp ∈ lvl.xpath_in_parent,
      pyStartsWith xp "//" = true)
    (hpy : ∀ c ∈ py_chain, pyStartsWith c "//" = true)
    (hpyne : py_chain ≠ []) :
    (∀ u rest, collapseLeadingDup (("PAGE:" ++ u) :: ("URL:" ++ u) :: rest)
        = ("PAGE:" ++ u) :: rest) ∧
    (collapseLeadingDup (composeSegments ft inner url)).Chain' noPageUrlDup ∧
    (rebuildChainSegments url py_chain cfu inner).Chain' noPageUrlDup := by
  have hpageShape : pageSegsOf url = [] ∨ ∃ u', pageSegsOf url = ["PAGE:" ++ u'] := by
    rcases url with _ | u
    · exact Or.inl rfl
    · simp only [pageSegsOf]
      by_cases hu : (u == "") = true
      · rw [if_pos hu]
        exact Or.inl rfl
      · rw [if_neg hu]
        exact Or.inr ⟨u, rfl⟩
  refine ⟨?_, ?_, ?_⟩
  · intro u rest
    have h5 : pyDrop ("PAGE:" ++ u) 5 = u := pyDrop_append "PAGE:" u
    have h4 : pyDrop ("URL:" ++ u) 4 = u := pyDrop_append "URL:" u
    simp only [collapseLeadingDup, pyStartsWith_append, h5, h4]
    simp
  · obtain ⟨hmem, hhead⟩ := restSegs_shape ft inner hinner hchain
    have hrest : ∀ sg ∈ chainSegsOf ft ++ curSegsOf ft ++ innerSegsOf inner,
        pyStartsWith sg "PAGE:" = false := by
      intro sg hsg
      rcases hmem sg hsg with h | h
      · exact not_page_of_slash h
      · exact not_page_of_url h
    have hhd : ∀ a t', chainSegsOf ft ++ curSegsOf ft ++ innerSegsOf inner = a :: t' →
        pyStartsWith a "URL:" = false :=
      fun a t' h => not_url_of_slash (hhead a t' h)
    have hsplit : composeSegments ft inner url =
        pageSegsOf url ++ (chainSegsOf ft ++ curSegsOf ft ++ innerSegsOf inner) := by
      simp [composeSegments, List.append_assoc]
    rw [hsplit, collapseLeadingDup_id_of_shape _ _ hpageShape hrest hhd]
    exact chain'_noPageUrlDup_of_shape _ _ hpageShape hrest hhd
  · have hrest : ∀ sg ∈ py_chain ++ ["URL:" ++ cfu]
        ++ (if optTruthy inner then [inner.getD ""] else []),
        pyStartsWith sg "PAGE:" = false := by
      intro sg hsg
      rcases List.mem_append.mp hsg with hsg | hsg
      · rcases List.mem_append.mp hsg with hsg | hsg
        · exact not_page_of_slash (hpy sg hsg)
        · rw [List.mem_singleton.mp hsg]
          exact not_page_of_url (pyStartsWith_append "URL:" cfu)
      · rcases inner with _ | ix
        · simp [optTruthy] at hsg
        · by_cases hb : optTruthy (some ix) = true
          · rw [if_pos hb] at hsg
            rw [List.mem_singleton.mp hsg]
            exact not_page_of_slash (hinner ix rfl)
          · rw [if_neg hb] at hsg
            cases hsg
    have hhd : ∀ a t', py_chain ++ ["URL:" ++ cfu]
        ++ (if optTruthy inner then [inner.getD ""] else []) = a :: t' →
        pyStartsWith a "URL:" = false := by
      intro a t' h
      cases hpc : py_chain with
      | nil => exact absurd hpc hpyne
      | cons c cs =>
        rw [hpc] at h
        simp only [List.cons_append] at h
        injection h with h1 h2
        rw [← h1]
        exact not_url_of_slash (hpy c (hpc ▸ List.mem_cons_self _ _))
    have hsplit : rebuildChainSegments url py_chain cfu inner =
        pageSegsOf url ++ (py_chain ++ ["URL:" ++ cfu]
          ++ (if optTruthy inner then [inner.getD ""] else [])) := by
      simp [rebuildChainSegments, List.append_assoc]
    rw [hsplit]
    exact chain'_noPageUrlDup_of_shape _ _ hpageShape hrest hhd

/-- Witness for C4 at concrete inputs: a one-level frame trace with a page
URL, and a one-element rebuilt chain. -/
theorem no_adjacent_page_url_duplicate_witness :
    collapseLeadingDup (("PAGE:" ++ "https://e.com") :: ("URL:" ++ "https://e.com") :: ["//div[1]"])
        = ("PAGE:" ++ "https://e.com") :: ["//div[1]"] ∧
    (collapseLeadingDup (composeSegments
        (some { chain := [{ xpath_in_parent := some "//html[1]/body[1]/iframe[2]",
                            tag := some "iframe", index := some 1,
                            frame_url := some "https://c.com" }],
                current_frame_url := some "https://c.com" })
        (some "//div[3]") (some "https://e.com"))).Chain' noPageUrlDup ∧
    (rebuildChainSegments (some "https://e.com") ["//html[1]/body[1]/iframe[2]"]
        "https://c.com" (some "//div[3]")).Chain' noPageUrlDup := by
  have h := no_adjacent_page_url_duplicate
    (some { chain := [{ xpath_in_parent := some "//html[1]/body[1]/iframe[2]",
                        tag := some "iframe", index := some 1,
                        frame_url := some "https://c.com" }],
            current_frame_url := some "https://c.com" })
    (some "//div[3]") (some "https://e.com")
    ["//html[1]/body[1]/iframe[2]"] "https://c.com"
    (by intro ix hix
        rw [Option.mem_def, Option.some.injEq] at hix
        rw [← hix]
        decide)
    (by intro t ht lvl hlvl xp hxp
        rw [Option.mem_def, Option.some.injEq] at ht
        subst ht
        rw [List.mem_singleton] at hlvl
        subst hlvl
        rw [Option.mem_def] at hxp
        simp only [Option.some.injEq] at hxp
        rw [← hxp]
        decide)
    (by intro c hc
        rw [List.mem_singleton] at hc
        rw [hc]
        decide)
    (by decide)
  exact ⟨h.1 "https://e.com" ["//div[1]"], h.2.1, h.2.2⟩


/-! ### C2 -/

theorem screenshotPath_injective {m n : Nat} (h : screenshotPath m = screenshotPath n) :
    m = n := by
  apply natRepr_injective
  have hd := congrArg String.data h
  simp only [screenshotPath, String.data_append] at hd
  have h1 := List.append_cancel_right hd
  have h2 := List.append_cancel_left h1
  exact congrArg String.mk h2

theorem range'_one_concat (k : Nat) :
    List.range' 1 (k + 1) = List.range' 1 k ++ [k + 1] := by
  have h : List.range' 1 (k + 1) = List.range' 1 k ++ [1 + 1 * k] :=
    List.range'_concat 1 k
  simpa [Nat.add_comm] using h

theorem recordOperationCore_fields (s : RecorderState) (action : String)
    (ev : EventData) (n : Nat) :
    (recordOperationCore s action ev n).1.operations
      = s.operations ++ [(recordOperationCore s action ev n).2] ∧
    (recordOperationCore s action ev n).2.step_id = n ∧
    (recordOperationCore s action ev n).1.stepCounter = s.stepCounter ∧
    (recordOperationCore s action ev n).1.assigned = s.assigned ∧
    (recordOperationCore s action ev n).1.last_input_by_selector
      = s.last_input_by_selector := by
  cases h : ev.crash <;>
    simp [recordOperationCore, h, makeOperation, fallbackOperation]

theorem deleteOperationByStepId_fields (s : RecorderState) (n : Nat) :
    List.Sublist (deleteOperationByStepId s n).operations s.operations ∧
    (deleteOperationByStepId s n).stepCounter = s.stepCounter ∧
    (deleteOperationByStepId s n).assigned = s.assigned := by
  have hops : List.Sublist (deleteOperationByStepId s n).operations s.operations := by
    rcases h : s.operations.find? (fun op => op.step_id == n) with _ | op
    · simp only [deleteOperationByStepId, h]
      exact List.Sublist.refl _
    · simp only [deleteOperationByStepId, h]
      exact List.eraseP_sublist _
  have hc : (deleteOperationByStepId s n).stepCounter = s.stepCounter := by
    rcases h : s.operations.find? (fun op => op.step_id == n) with _ | op <;>
      simp [deleteOperationByStepId, h]
  have ha : (deleteOperationByStepId s n).assigned = s.assigned := by
    rcases h : s.operations.find? (fun op => op.step_id == n) with _ | op <;>
      simp [deleteOperationByStepId, h]
  exact ⟨hops, hc, ha⟩

theorem handleMergedInput_fields (s : RecorderState) (ev : EventData) (n : Nat) :
    List.Sublist (handleMergedInput s ev n).operations
      (s.operations ++ [(recordOperationCore s "input" ev n).2]) ∧
    (handleMergedInput s ev n).stepCounter = s.stepCounter ∧
    (handleMergedInput s ev n).assigned = s.assigned := by
  obtain ⟨h1, h2, h3, h4, h5⟩ := recordOperationCore_fields s "input" ev n
  unfold handleMergedInput
  by_cases hs : (ev.selector == "") = true
  · rw [if_pos hs]
    refine ⟨?_, h3, h4⟩
    rw [h1]
  · rw [if_neg hs]
    unfold recordInputWithReplacement
    rcases hp : dictGet s.last_input_by_selector ev.selector with _ | ⟨pid, shot⟩
    · simp only [hp]
      refine ⟨?_, h3, h4⟩
      show List.Sublist (recordOperationCore s "input" ev n).1.operations _
      rw [h1]
    · simp only [hp]
      by_cases hpid : pid ≠ n
      · rw [if_pos hpid]
        obtain ⟨d1, d2, d3⟩ :=
          deleteOperationByStepId_fields (recordOperationCore s "input" ev n).1 pid
        refine ⟨?_, ?_, ?_⟩
        · show List.Sublist
            (deleteOperationByStepId (recordOperationCore s "input" ev n).1 pid).operations _
          rw [← h1]
          exact d1
        · show (deleteOperationByStepId (recordOperationCore s "input" ev n).1 pid).stepCounter = _
          rw [d2, h3]
        · show (deleteOperationByStepId (recordOperationCore s "input" ev n).1 pid).assigned = _
          rw [d3, h4]
      · rw [if_neg hpid]
        refine ⟨?_, h3, h4⟩
        show List.Sublist (recordOperationCore s "input" ev n).1.operations _
        rw [h1]

theorem recStep_discipline (s : RecorderState) (e : RecEvent)
    (he : e.isProgrammatic = false)
    (h1 : s.assigned = List.range' 1 s.stepCounter)
    (h2 : List.Sublist (s.operations.map (fun op => op.step_id)) s.assigned) :
    (recStep s e).assigned = List.range' 1 (recStep s e).stepCounter ∧
    List.Sublist ((recStep s e).operations.map (fun op => op.step_id))
      (recStep s e).assigned := by
  have hsub : List.Sublist (s.operations.map (fun op => op.step_id) ++ [s.stepCounter + 1])
      (s.assigned ++ [s.stepCounter + 1]) :=
    List.Sublist.append h2 (List.Sublist.refl _)
  cases e with
  | click ev =>
    obtain ⟨c1, c2, c3, c4, c5⟩ := recordOperationCore_fields
      { s with stepCounter := s.stepCounter + 1,
               assigned := s.assigned ++ [s.stepCounter + 1] }
      "click" ev (s.stepCounter + 1)
    refine ⟨?_, ?_⟩
    · show (recordOperationCore _ "click" ev _).1.assigned
        = List.range' 1 (recordOperationCore _ "click" ev _).1.stepCounter
      rw [c4, c3]
      show s.assigned ++ [s.stepCounter + 1] = List.range' 1 (s.stepCounter + 1)
      rw [h1, range'_one_concat]
    · show List.Sublist ((recordOperationCore _ "click" ev _).1.operations.map
          (fun op => op.step_id)) (recordOperationCore _ "click" ev _).1.assigned
      rw [c1, c4, List.map_append]
      show List.Sublist (_ ++ [(recordOperationCore _ "click" ev _).2.step_id]) _
      rw [c2]
      exact hsub
  | navigation ev =>
    obtain ⟨c1, c2, c3, c4, c5⟩ := recordOperationCore_fields
      { s with stepCounter := s.stepCounter + 1,
               assigned := s.assigned ++ [s.stepCounter + 1] }
      "navigation" ev (s.stepCounter + 1)
    refine ⟨?_, ?_⟩
    · show (recordOperationCore _ "navigation" ev _).1.assigned
        = List.range' 1 (recordOperationCore _ "navigation" ev _).1.stepCounter
      rw [c4, c3]
      show s.assigned ++ [s.stepCounter + 1] = List.range' 1 (s.stepCounter + 1)
      rw [h1, range'_one_concat]
    · show List.Sublist ((recordOperationCore _ "navigation" ev _).1.operations.map
          (fun op => op.step_id)) (recordOperationCore _ "navigation" ev _).1.assigned
      rw [c1, c4, List.map_append]
      show List.Sublist (_ ++ [(recordOperationCore _ "navigation" ev _).2.step_id]) _
      rw [c2]
      exact hsub
  | input ev =>
    obtain ⟨m1, m2, m3⟩ := handleMergedInput_fields
      { s with stepCounter := s.stepCounter + 1,
               assigned := s.assigned ++ [s.stepCounter + 1] }
      ev (s.stepCounter + 1)
    obtain ⟨c1, c2, c3, c4, c5⟩ := recordOperationCore_fields
      { s with stepCounter := s.stepCounter + 1,
               assigned := s.assigned ++ [s.stepCounter + 1] }
      "input" ev (s.stepCounter + 1)
    refine ⟨?_, ?_⟩
    · show (handleMergedInput _ ev _).assigned
        = List.range' 1 (handleMergedInput _ ev _).stepCounter
      rw [m3, m2]
      show s.assigned ++ [s.stepCounter + 1] = List.range' 1 (s.stepCounter + 1)
      rw [h1, range'_one_concat]
    · show List.Sublist ((handleMergedInput _ ev _).operations.map
          (fun op => op.step_id)) (handleMergedInput _ ev _).assigned
      rw [m3]
      refine List.Sublist.trans (m1.map (fun op => op.step_id)) ?_
      rw [List.map_append]
      show List.Sublist (_ ++ [(recordOperationCore _ "input" ev _).2.step_id]) _
      rw [c2]
      exact hsub
  | programmatic action ev =>
    simp [RecEvent.isProgrammatic] at he

theorem foldl_recStep_discipline (tr : List RecEvent) (s : RecorderState)
    (he : ∀ e ∈ tr, e.isProgrammatic = false)
    (h1 : s.assigned = List.range' 1 s.stepCounter)
    (h2 : List.Sublist (s.operations.map (fun op => op.step_id)) s.assigned) :
    (tr.foldl recStep s).assigned = List.range' 1 (tr.foldl recStep s).stepCounter ∧
    List.Sublist ((tr.foldl recStep s).operations.map (fun op => op.step_id))
      (tr.foldl recStep s).assigned := by
  induction tr generalizing s with
  | nil => exact ⟨h1, h2⟩
  | cons e tr ih =>
    obtain ⟨g1, g2⟩ := recStep_discipline s e (he e (List.mem_cons_self _ _)) h1 h2
    exact ih (recStep s e) (fun x hx => he x (List.mem_cons.mpr (Or.inr hx))) g1 g2

/-- C2 counterexample: a browser click, a programmatic injection, then a
second browser click assign step ids 1, 2, 2 — the third assigned id is
neither distinct from nor greater than the second, because
`record_programmatic_action` derives its id from `len(self.operations) + 1`
while browser events use the independent `step_counter` closure. -/
theorem step_id_duplicate_with_programmatic :
    (runRecorder [RecEvent.click (inputEventData "#a" "" true),
        RecEvent.programmatic "click" (inputEventData "#b" "" true),
        RecEvent.click (inputEventData "#c" "" true)]).assigned = [1, 2, 2] ∧
    ¬ (runRecorder [RecEvent.click (inputEventData "#a" "" true),
        RecEvent.programmatic "click" (inputEventData "#b" "" true),
        RecEvent.click (inputEventData "#c" "" true)]).assigned.Pairwise (· < ·) := by
  have h : (runRecorder [RecEvent.click (inputEventData "#a" "" true),
      RecEvent.programmatic "click" (inputEventData "#b" "" true),
      RecEvent.click (inputEventData "#c" "" true)]).assigned = [1, 2, 2] := by rfl
  refine ⟨h, ?_⟩
  rw [h]
  decide

/-- C2 (amended): over any interleaving of browser click, navigation and
input events without programmatic injection, the assigned step ids are
exactly 1..N in assignment order — globally unique and strictly increasing —
and after coalescing deletions the step ids of the surviving operations form
a strictly increasing subsequence of the assignment order. -/
theorem step_id_discipline (tr : List RecEvent)
    (h : ∀ e ∈ tr, e.isProgrammatic = false) :
    (runRecorder tr).assigned = List.range' 1 (runRecorder tr).stepCounter ∧
    (runRecorder tr).assigned.Pairwise (· < ·) ∧
    List.Sublist ((runRecorder tr).operations.map (fun op => op.step_id))
      (runRecorder tr).assigned ∧
    ((runRecorder tr).operations.map (fun op => op.step_id)).Pairwise (· < ·) := by
  obtain ⟨h1, h2⟩ := foldl_recStep_discipline tr initRecorderState h rfl
    (List.nil_sublist _)
  have hpw : (runRecorder tr).assigned.Pairwise (· < ·) := by
    rw [show (runRecorder tr).assigned = List.range' 1 (runRecorder tr).stepCounter from h1]
    exact List.pairwise_lt_range' _ _
  exact ⟨h1, hpw, h2, hpw.sublist h2⟩

/-- Witness for C2's amended theorem on a concrete browser-only trace. -/
theorem step_id_discipline_witness :
    (runRecorder [RecEvent.click (inputEventData "#a" "" true),
        RecEvent.input (inputEventData "#q" "x" true),
        RecEvent.input (inputEventData "#q" "xy" true)]).assigned
      = List.range' 1 (runRecorder [RecEvent.click (inputEventData "#a" "" true),
        RecEvent.input (inputEventData "#q" "x" true),
        RecEvent.input (inputEventData "#q" "xy" true)]).stepCounter ∧
    (runRecorder [RecEvent.click (inputEventData "#a" "" true),
        RecEvent.input (inputEventData "#q" "x" true),
        RecEvent.input (inputEventData "#q" "xy" true)]).assigned.Pairwise (· < ·) ∧
    List.Sublist ((runRecorder [RecEvent.click (inputEventData "#a" "" true),
        RecEvent.input (inputEventData "#q" "x" true),
        RecEvent.input (inputEventData "#q" "xy" true)]).operations.map
        (fun op => op.step_id))
      (runRecorder [RecEvent.click (inputEventData "#a" "" true),
        RecEvent.input (inputEventData "#q" "x" true),
        RecEvent.input (inputEventData "#q" "xy" true)]).assigned ∧
    ((runRecorder [RecEvent.click (inputEventData "#a" "" true),
        RecEvent.input (inputEventData "#q" "x" true),
        RecEvent.input (inputEventData "#q" "xy" true)]).operations.map
        (fun op => op.step_id)).Pairwise (· < ·) :=
  step_id_discipline
    [RecEvent.click (inputEventData "#a" "" true),
     RecEvent.input (inputEventData "#q" "x" true),
     RecEvent.input (inputEventData "#q" "xy" true)]
    (by intro e hee
        rcases hee with _ | ⟨_, hee⟩
        · rfl
        · rcases hee with _ | ⟨_, hee⟩
          · rfl
          · rcases hee with _ | ⟨_, hee⟩
            · rfl
            · cases hee)


/-! ### C1 -/

theorem recStep_input_init (sel v : String) (ok : Bool) (hsel : sel ≠ "") :
    recStep initRecorderState (RecEvent.input (inputEventData sel v ok)) =
      midState sel 1 v ok := by
  have hbe : (sel == "") = false := beq_eq_false_iff_ne.mpr hsel
  cases ok <;>
    simp [recStep, initRecorderState, handleMergedInput, inputEventData, hbe,
      recordInputWithReplacement, recordOperationCore, dictGet, dictSet,
      List.find?, midState, makeOperation, List.range']

theorem recStep_input_mid (sel : String) (hsel : sel ≠ "") (k : Nat)
    (v v' : String) (ok ok' : Bool) :
    recStep (midState sel k v ok) (RecEvent.input (inputEventData sel v' ok')) =
      midState sel (k + 1) v' ok' := by
  have hbe : (sel == "") = false := beq_eq_false_iff_ne.mpr hsel
  have hkne : k ≠ k + 1 := by omega
  have hpathne : (screenshotPath (k + 1) == screenshotPath k) = false :=
    beq_eq_false_iff_ne.mpr (fun hh => by
      have := screenshotPath_injective hh
      omega)
  have hrange := range'_one_concat k
  cases ok <;> cases ok' <;>
    simp [recStep, midState, handleMergedInput, inputEventData, hbe,
      recordInputWithReplacement, recordOperationCore, dictGet, dictSet,
      List.find?, deleteOperationByStepId, removeScreenshotFile, List.eraseP,
      List.filter, makeOperation, hkne, hpathne, hrange]

theorem runRec_inputTrace (sel : String) (hsel : sel ≠ "") (cs : List (String × Bool)) :
    ∀ (k : Nat) (v : String) (ok : Bool),
    List.foldl recStep (midState sel k v ok) (inputTrace sel cs) =
      midState sel (k + cs.length) ((cs.getLastD (v, ok)).1) ((cs.getLastD (v, ok)).2) := by
  induction cs with
  | nil =>
    intro k v ok
    simp [inputTrace]
  | cons c cs ih =>
    intro k v ok
    simp only [inputTrace, List.map_cons, List.foldl_cons]
    rw [recStep_input_mid sel hsel k v c.1 ok c.2]
    have hfold := ih (k + 1) c.1 c.2
    simp only [inputTrace] at hfold
    rw [hfold]
    rw [List.getLastD_cons, List.length_cons]
    have harith : k + 1 + cs.length = k + (cs.length + 1) := by omega
    rw [harith]

/-- C1: input coalescing.  For any non-empty sequence of input events on one
selector (each carrying a value and a screenshot-success flag), after the
last event is processed exactly one input operation for that selector
survives in the log; it carries the last event's value and the last assigned
step id, and none of the screenshot files of the superseded operations
(steps 1..N-1) exists on disk any more. -/
theorem input_coalescing (sel : String) (hsel : sel ≠ "")
    (cs : List (String × Bool)) (hne : cs ≠ []) :
    (∃ op, (runRecorder (inputTrace sel cs)).operations = [op] ∧
      op.action = "input" ∧ op.selector = sel ∧
      op.value = (cs.getLast hne).1 ∧ op.step_id = cs.length) ∧
    (∀ k, 1 ≤ k → k < cs.length →
      screenshotPath k ∉ (runRecorder (inputTrace sel cs)).files) := by
  rcases cs with _ | ⟨c, cs'⟩
  · exact absurd rfl hne
  · have hrun : runRecorder (inputTrace sel (c :: cs')) =
        midState sel (1 + cs'.length) ((cs'.getLastD c).1) ((cs'.getLastD c).2) := by
      unfold runRecorder
      simp only [inputTrace, List.map_cons, List.foldl_cons]
      rw [recStep_input_init sel c.1 c.2 hsel]
      have h := runRec_inputTrace sel hsel cs' 1 c.1 c.2
      simpa using h
    have hlast : (c :: cs').getLast hne = cs'.getLastD c :=
      List.getLast_eq_getLastD ..
    have hlen : (c :: cs').length = 1 + cs'.length := by
      simp [Nat.add_comm]
    constructor
    · refine ⟨makeOperation "input"
        (inputEventData sel ((cs'.getLastD c).1) ((cs'.getLastD c).2))
        (1 + cs'.length), ?_, ?_, ?_, ?_, ?_⟩
      · rw [hrun]
        rfl
      · simp [makeOperation]
      · simp [makeOperation, inputEventData]
      · rw [hlast]
        simp [makeOperation, inputEventData]
      · rw [hlen]
        simp [makeOperation]
    · intro k hk1 hklt hmem
      rw [hrun] at hmem
      simp only [midState] at hmem
      rcases hok : (cs'.getLastD c).2 with _ | _
      · rw [hok] at hmem
        simp at hmem
      · rw [hok] at hmem
        simp only [if_true] at hmem
        rw [List.mem_singleton] at hmem
        have := screenshotPath_injective hmem
        rw [hlen] at hklt
        omega

/-- Witness for C1: typing "a" then "ab" into `#q` leaves exactly one input
operation with value "ab" and step id 2, and the screenshot file of the
superseded step 1 is gone. -/
theorem input_coalescing_witness :
    (∃ op, (runRecorder (inputTrace "#q" [("a", true), ("ab", true)])).operations = [op] ∧
      op.action = "input" ∧ op.selector = "#q" ∧
      op.value = ([("a", true), ("ab", true)].getLast (by decide)).1 ∧
      op.step_id = [("a", true), ("ab", true)].length) ∧
    (∀ k, 1 ≤ k → k < [("a", true), ("ab", true)].length →
      screenshotPath k ∉ (runRecorder (inputTrace "#q" [("a", true), ("ab", true)])).files) :=
  input_coalescing "#q" (by decide) [("a", true), ("ab", true)] (by decide)

end Mcpify
